import Mathlib

/-!
Verification development for the turbo-disco playlist converter
(src/main.rs). The browser is abstracted at the Page Session seam: each
DOM call that can fail is modelled by an `Option`/`Bool` input, and the
extraction / resolution algorithms are translated function by function.
-/

namespace TurboDisco

/-- Normalized track record (src/main.rs lines 37-42): derived structural
equality on the triple (name, artist, album). -/
structure Track where
  name : String
  artist : String
  album : Option String
  deriving DecidableEq, Repr

/-- The closed platform enumeration (lines 45-51). -/
inductive Platform where
  | youtube
  | apple
  | spotify
  | unknown
  deriving DecidableEq, Repr

/-- `Platform::from_url` (lines 53-63): `url.host_str().unwrap_or_default()`
(modelled as an optional host string, absent host giving the empty string),
then an exact string match against the fixed allow-list. -/
def Platform.from_url (host : Option String) : Platform :=
  let h := host.getD ""
  if h = "music.youtube.com" then Platform.youtube
  else if h = "music.apple.com" ∨ h = "itunes.apple.com" then Platform.apple
  else if h = "open.spotify.com" ∨ h = "spotify.com" then Platform.spotify
  else Platform.unknown

/-! ### Model of `urlencoding::decode`

The crate percent-decodes the byte sequence of the input string (a `%`
followed by two hex digits becomes one byte, anything else is copied
verbatim) and then re-validates the result as UTF-8, failing on invalid
UTF-8. We model bytes as `Nat` and code points as `Char`. -/

/-- Value of a hex-digit byte, as accepted by the urlencoding crate. -/
def hexValByte (b : Nat) : Option Nat :=
  if 48 ≤ b ∧ b ≤ 57 then some (b - 48)
  else if 97 ≤ b ∧ b ≤ 102 then some (b - 87)
  else if 65 ≤ b ∧ b ≤ 70 then some (b - 55)
  else none

/-- UTF-8 encoding of one unicode scalar value, as a byte list. -/
def charUtf8 (c : Char) : List Nat :=
  let n := c.toNat
  if n < 128 then [n]
  else if n < 2048 then [192 + n / 64, 128 + n % 64]
  else if n < 65536 then [224 + n / 4096, 128 + n / 64 % 64, 128 + n % 64]
  else [240 + n / 262144, 128 + n / 4096 % 64, 128 + n / 64 % 64, 128 + n % 64]

/-- The UTF-8 byte sequence of a string. -/
def strBytes (s : String) : List Nat :=
  (s.data.map charUtf8).flatten

/-- Percent-decoding of a byte sequence (`urlencoding::decode_binary`): a
`'%'` (byte 37) followed by two hex digits is replaced by the denoted byte,
otherwise bytes are copied through unchanged. -/
def percentDecodeBytes : List Nat → List Nat
  | [] => []
  | 37 :: h1 :: h2 :: rest =>
    match hexValByte h1, hexValByte h2 with
    | some a, some b => (16 * a + b) :: percentDecodeBytes rest
    | _, _ => 37 :: percentDecodeBytes (h1 :: h2 :: rest)
  | b :: rest => b :: percentDecodeBytes rest

/-- Decode one UTF-8 encoded scalar from the front of a byte list, rejecting
overlong forms, surrogates and out-of-range values. -/
def utf8DecodeOne : List Nat → Option (Char × List Nat)
  | [] => none
  | b :: rest =>
    if b < 128 then some (Char.ofNat b, rest)
    else if b < 194 then none
    else if b < 224 then
      match rest with
      | b1 :: rest1 =>
        if 128 ≤ b1 ∧ b1 < 192 then
          some (Char.ofNat ((b - 192) * 64 + (b1 - 128)), rest1)
        else none
      | [] => none
    else if b < 240 then
      match rest with
      | b1 :: b2 :: rest2 =>
        if (if b = 224 then 160 ≤ b1 ∧ b1 < 192
            else if b = 237 then 128 ≤ b1 ∧ b1 < 160
            else 128 ≤ b1 ∧ b1 < 192) ∧ 128 ≤ b2 ∧ b2 < 192 then
          some (Char.ofNat ((b - 224) * 4096 + (b1 - 128) * 64 + (b2 - 128)), rest2)
        else none
      | _ => none
    else if b < 245 then
      match rest with
      | b1 :: b2 :: b3 :: rest3 =>
        if (if b = 240 then 144 ≤ b1 ∧ b1 < 192
            else if b = 244 then 128 ≤ b1 ∧ b1 < 144
            else 128 ≤ b1 ∧ b1 < 192) ∧
            (128 ≤ b2 ∧ b2 < 192) ∧ (128 ≤ b3 ∧ b3 < 192) then
          some (Char.ofNat ((b - 240) * 262144 + (b1 - 128) * 4096 +
            (b2 - 128) * 64 + (b3 - 128)), rest3)
        else none
      | _ => none
    else none

/-- Decode a whole UTF-8 byte list (fuelled by the list length; each step
consumes at least one byte). -/
def utf8DecodeAux : Nat → List Nat → Option (List Char)
  | _, [] => some []
  | 0, _ :: _ => none
  | fuel + 1, l =>
    match utf8DecodeOne l with
    | none => none
    | some (c, rest) => (utf8DecodeAux fuel rest).map (fun cs => c :: cs)

/-- `urlencoding::decode` (used at line 260): percent-decode the byte
sequence, then re-read it as UTF-8; `none` models the `FromUtf8Error`. -/
def urldecode (s : String) : Option String :=
  (utf8DecodeAux (percentDecodeBytes (strBytes s)).length
      (percentDecodeBytes (strBytes s))).map (fun cs => String.mk cs)

/-- Rust `str::to_lowercase` (line 252), modelled character-wise. -/
def toLowerStr (s : String) : String :=
  String.mk (s.data.map Char.toLower)

/-- Rust `str::trim`, modelled character-wise: strip leading and trailing
whitespace. -/
def trimStr (s : String) : String :=
  String.mk (((s.data.dropWhile Char.isWhitespace).reverse.dropWhile
    Char.isWhitespace).reverse)

/-! ### YouTube extractor (`fetch_yt_playlist`, lines 111-138) -/

/-- One matched `ytmusic-responsive-list-item-renderer` row. `fields` is the
result of `find_elements("yt-formatted-string")` (`none` = the call failed,
in which case `filter_map(.. .ok())` drops the row), and each entry is that
sub-element's `get_inner_text()` result (`none` = the call failed, dropped
by the inner `filter_map`). -/
structure YtRow where
  fields : Option (List (Option String))
  deriving DecidableEq, Repr

/-- The session state a `fetch_yt_playlist` call observes: `new_tab` and
`navigate_to` outcomes, and `wait_for_elements` (`none` = it failed). -/
structure YtPage where
  newTabOk : Bool
  navOk : Bool
  rows : Option (List YtRow)
  deriving DecidableEq, Repr

/-- Failure modes of the extractors: session-level errors propagated with
`?`, and the fatal shape mismatch (`unreachable!()` at line 133, modelled as
a fatal error value). -/
inductive FetchError where
  | sessionError
  | malformedRow
  deriving DecidableEq, Repr

/-- The slice match at lines 127-134: exactly five extracted texts map to a
track (duration and the trailing field discarded, empty album mapped to
absent); any other shape hits `unreachable!()`, modelled as the fatal
`malformedRow` error. -/
def parseYtTexts (texts : List String) : Except FetchError Track :=
  match texts with
  | [name, artist, album, _duration, _empty] =>
    Except.ok { name := name, artist := artist,
                album := (some album).filter (fun s => !s.isEmpty) }
  | _ => Except.error FetchError.malformedRow

/-- The row mapping performed lazily by the iterator chain and forced by
`collect`: rows are processed in order and the first malformed row aborts
the whole extraction. -/
def tryMapTracks : List (List (Option String)) → Except FetchError (List Track)
  | [] => Except.ok []
  | fs :: rest =>
    match parseYtTexts (fs.filterMap id) with
    | Except.error e => Except.error e
    | Except.ok t =>
      match tryMapTracks rest with
      | Except.error e => Except.error e
      | Except.ok ts => Except.ok (t :: ts)

/-- `fetch_yt_playlist` (lines 111-138). -/
def fetch_yt_playlist (page : YtPage) : Except FetchError (List Track) :=
  if page.newTabOk = false then Except.error FetchError.sessionError
  else if page.navOk = false then Except.error FetchError.sessionError
  else
    match page.rows with
    | none => Except.error FetchError.sessionError
    | some rs => tryMapTracks (rs.filterMap YtRow.fields)

/-! ### Spotify extractor (`fetch_spotify_playlist`, lines 140-208) -/

/-- One rendered Spotify track row. `scrollOk` is the `scroll_into_view`
outcome (failure only logged, line 158-160); `name` and `artist` are the
`find_element(..).and_then(get_inner_text)` results of lines 161-164
(`none` = the chain failed). -/
structure SpRow where
  scrollOk : Bool
  name : Option String
  artist : Option String
  deriving DecidableEq, Repr

/-- Lines 167-177: a row yields a track only when both name and artist were
extracted; album is never populated. -/
def parseSpotifyRow (r : SpRow) : Option Track :=
  match r.name, r.artist with
  | some n, some a => some { name := n, artist := a, album := none }
  | _, _ => none

/-- One step of the inner `for` loop (lines 189-195): push the track unless
`tracks.contains(&track)`. -/
def dedupInsert (acc : List Track) (t : Track) : List Track :=
  if t ∈ acc then acc else acc ++ [t]

/-- The whole inner `for` loop over a parsed buffer. -/
def dedupeAppend (acc : List Track) (buf : List Track) : List Track :=
  buf.foldl dedupInsert acc

/-- First-seen-order deduplication of a track sequence (the loop run from an
empty accumulator). -/
def dedupe (l : List Track) : List Track :=
  dedupeAppend [] l

/-- One successful pass of the scroll loop: `skip(tracks.len())` over the
currently rendered rows, parse the remainder, insert with dedup. -/
def spotifyPass (tracks : List Track) (rows : List SpRow) : List Track :=
  dedupeAppend tracks ((rows.drop tracks.length).filterMap parseSpotifyRow)

/-- The scroll loop (lines 151-204) with explicit fuel (the Rust loop is
unbounded; `none` = fuel exhausted, i.e. still running). `query pass` is the
`wait_for_elements` outcome of the given pass (`none` = Err, which the code
logs and retries via `continue`, skipping the break check); on a successful
pass the loop breaks iff the pass added zero new tracks. -/
def fetch_spotify_playlist (query : Nat → Option (List SpRow)) :
    Nat → Nat → List Track → Option (List Track)
  | 0, _, _ => none
  | fuel + 1, pass, tracks =>
    match query pass with
    | none => fetch_spotify_playlist query fuel (pass + 1) tracks
    | some rows =>
      if (spotifyPass tracks rows).length = tracks.length then some (spotifyPass tracks rows)
      else fetch_spotify_playlist query fuel (pass + 1) (spotifyPass tracks rows)

/-! ### Apple resolver (`find_apple_links` / `try_find_apple_song_link`,
lines 210-266) -/

/-- An `a` element found under a result row: its `get_inner_text()` result
and its `get_attribute_value("href")` result (outer `none` = the call
failed; inner `Option` = attribute present or not). -/
structure Anchor where
  innerText : Option String
  href : Option (Option String)
  deriving DecidableEq, Repr

/-- One `li` result row; `anchor` is the `find_element("a")` result. -/
structure ResultRow where
  anchor : Option Anchor
  deriving DecidableEq, Repr

/-- The `div[aria-label="Songs"]` container: `lis` is the
`wait_for_elements("li")` outcome (`none` = Err). -/
structure SongsSection where
  lis : Option (List ResultRow)
  deriving DecidableEq, Repr

/-- What one search-results page shows to `try_find_apple_song_link`:
`songs` is the `wait_for_element` outcome for the Songs container
(`none` = Err). -/
structure ApplePage where
  songs : Option SongsSection
  deriving DecidableEq, Repr

/-- `try_find_apple_song_link` (lines 244-266). The `anyhow::Result` is
collapsed to `Option` (`none` = any Err, including "Song not found"); the
caller only distinguishes Ok from Err. Pipeline: keep rows whose `a` lookup
succeeded, keep those whose inner text case-insensitively equals the track
name, keep those whose href call succeeded, take the first, flatten the
attribute option, percent-decode. -/
def try_find_apple_song_link (page : ApplePage) (track : Track) : Option String :=
  match page.songs with
  | none => none
  | some sec =>
    match sec.lis with
    | none => none
    | some lis =>
      ((((lis.filterMap ResultRow.anchor).filter
            (fun a =>
              match a.innerText with
              | some t => toLowerStr t == toLowerStr track.name
              | none => false)).filterMap Anchor.href).head?.join).bind
        (fun href => urldecode href)

/-- The per-track session environment `find_apple_links` observes:
`new_tab` and `navigate_to` outcomes (both used with `?`, so their failures
propagate), the search-results page content, and the `tab.close(true)`
outcome (only logged, lines 236-238). -/
structure TrackEnv where
  newTabOk : Bool
  navOk : Bool
  page : ApplePage
  closeOk : Bool
  deriving DecidableEq, Repr

/-- Result of a `find_apple_links` run, instrumented with how many tabs were
opened and how many close attempts were made (`result = none` = the function
returned Err). -/
structure RunResult where
  result : Option (List String)
  opened : Nat
  closed : Nat
  deriving DecidableEq, Repr

/-- `find_apple_links` (lines 210-242), instrumented. Per track: `new_tab()?`
(a failure propagates before any tab exists), `navigate_to(&url)?` (a failure
propagates with the tab left open and unclosed), then the match attempt
(`if let Ok` — an Err is treated as no match), then `tab.close(true)` whose
failure is only logged (`closeOk` is never read). Matched links are pushed
in track order; an Err from a later track discards everything. -/
def find_apple_links_run : List (Track × TrackEnv) → RunResult
  | [] => { result := some [], opened := 0, closed := 0 }
  | (track, env) :: rest =>
    if env.newTabOk = false then { result := none, opened := 0, closed := 0 }
    else if env.navOk = false then { result := none, opened := 1, closed := 0 }
    else
      let link := try_find_apple_song_link env.page track
      let r := find_apple_links_run rest
      { result := r.result.map (fun links =>
          match link with
          | some url => url :: links
          | none => links),
        opened := r.opened + 1,
        closed := r.closed + 1 }

/-- The observable return value of `find_apple_links`. -/
def find_apple_links (l : List (Track × TrackEnv)) : Option (List String) :=
  (find_apple_links_run l).result

/-! ### Concrete fixtures used by witnesses and counterexamples -/

/-- A Spotify row that parses to `trackA`. -/
def rowA : SpRow := { scrollOk := true, name := some "A", artist := some "X" }

/-- A Spotify row that parses to `trackB`. -/
def rowB : SpRow := { scrollOk := true, name := some "B", artist := some "Y" }

def trackA : Track := { name := "A", artist := "X", album := none }

def trackB : Track := { name := "B", artist := "Y", album := none }

/-- A growing-until-stable row sequence on which the scroll loop stops too
early: the pass-1 delta is a duplicate row, so pass 1 adds zero new unique
tracks and the loop breaks before ever seeing `rowB`. -/
def cexQL : Nat → List SpRow
  | 0 => [rowA]
  | 1 => [rowA, rowA]
  | _ + 2 => [rowA, rowA, rowB]

/-- The row list whose parse produced the accumulator entering a pass:
nothing before pass 0, pass p's rows before pass p + 1. -/
def prevRows (query : Nat → List SpRow) : Nat → List SpRow
  | 0 => []
  | p + 1 => query p

/-- Session whose query fails on pass 0 and then returns a stable one-row
list (used to witness the retry-on-failure policy). -/
def qFailThenA : Nat → Option (List SpRow)
  | 0 => none
  | _ + 1 => some [rowA]

/-- A strictly growing row sequence that stabilizes at pass 1. -/
def wQL : Nat → List SpRow
  | 0 => [rowA]
  | _ + 1 => [rowA, rowB]

/-- Builds the result row of a fully rendered search candidate
(visible text, href attribute). -/
def mkCandidateRow (c : String × String) : ResultRow :=
  { anchor := some { innerText := some c.1, href := some (some c.2) } }

/-- A search page with a single candidate titled "Foo". -/
def appleHitPage : ApplePage :=
  { songs := some { lis := some [mkCandidateRow ("Foo", "https://music.apple.com/song/1")] } }

/-- A search page whose Songs container never appears. -/
def appleNoSongsPage : ApplePage := { songs := none }

def trackFoo : Track := { name := "Foo", artist := "Bar", album := none }

/-- Healthy per-track environment: everything succeeds, one matching
candidate. -/
def envGood : TrackEnv :=
  { newTabOk := true, navOk := true, page := appleHitPage, closeOk := true }

/-- Environment whose `navigate_to` fails. -/
def envNavFail : TrackEnv :=
  { newTabOk := true, navOk := false, page := appleHitPage, closeOk := true }

/-- Environment where the results container never appears and the close
itself fails. -/
def envNoSongsCloseFail : TrackEnv :=
  { newTabOk := true, navOk := true, page := appleNoSongsPage, closeOk := false }

/-! ## Lemmas about the dedup accumulator -/

theorem mem_dedupInsert (x t : Track) (acc : List Track) :
    x ∈ dedupInsert acc t ↔ x ∈ acc ∨ x = t := by
  unfold dedupInsert
  by_cases h : t ∈ acc
  · simp only [if_pos h]
    constructor
    · exact fun hx => Or.inl hx
    · rintro (hx | rfl)
      · exact hx
      · exact h
  · simp only [if_neg h, List.mem_append, List.mem_singleton]

theorem mem_dedupeAppend (x : Track) (buf : List Track) :
    ∀ acc, x ∈ dedupeAppend acc buf ↔ x ∈ acc ∨ x ∈ buf := by
  induction buf with
  | nil => intro acc; simp [dedupeAppend]
  | cons t rest ih =>
    intro acc
    show x ∈ dedupeAppend (dedupInsert acc t) rest ↔ _
    rw [ih (dedupInsert acc t), mem_dedupInsert]
    simp only [List.mem_cons]
    tauto

theorem mem_dedupe (x : Track) (l : List Track) : x ∈ dedupe l ↔ x ∈ l := by
  unfold dedupe
  rw [mem_dedupeAppend]
  simp

theorem dedupeAppend_append (acc : List Track) (a b : List Track) :
    dedupeAppend acc (a ++ b) = dedupeAppend (dedupeAppend acc a) b := by
  unfold dedupeAppend
  exact List.foldl_append dedupInsert acc a b

theorem dedupeAppend_absorb (buf : List Track) :
    ∀ acc, (∀ x ∈ buf, x ∈ acc) → dedupeAppend acc buf = acc := by
  induction buf with
  | nil => intro acc _; rfl
  | cons t rest ih =>
    intro acc h
    show dedupeAppend (dedupInsert acc t) rest = acc
    have ht : t ∈ acc := h t (List.mem_cons_self t rest)
    rw [dedupInsert, if_pos ht]
    exact ih acc (fun x hx => h x (List.mem_cons_of_mem t hx))

theorem dedupeAppend_extends (buf : List Track) :
    ∀ acc, ∃ s, dedupeAppend acc buf = acc ++ s := by
  induction buf with
  | nil => intro acc; exact ⟨[], (List.append_nil acc).symm⟩
  | cons t rest ih =>
    intro acc
    show ∃ s, dedupeAppend (dedupInsert acc t) rest = acc ++ s
    unfold dedupInsert
    by_cases h : t ∈ acc
    · rw [if_pos h]; exact ih acc
    · rw [if_neg h]
      obtain ⟨s, hs⟩ := ih (acc ++ [t])
      exact ⟨[t] ++ s, by rw [hs, List.append_assoc]⟩

theorem dedupeAppend_eq_of_length (acc buf : List Track)
    (h : (dedupeAppend acc buf).length = acc.length) :
    dedupeAppend acc buf = acc := by
  obtain ⟨s, hs⟩ := dedupeAppend_extends buf acc
  rw [hs] at h ⊢
  rw [List.length_append] at h
  have : s.length = 0 := by omega
  rw [List.length_eq_zero] at this
  rw [this, List.append_nil]

theorem dedupeAppend_length_le (buf : List Track) :
    ∀ acc, (dedupeAppend acc buf).length ≤ acc.length + buf.length := by
  induction buf with
  | nil => intro acc; simp [dedupeAppend]
  | cons t rest ih =>
    intro acc
    show (dedupeAppend (dedupInsert acc t) rest).length ≤ _
    have h1 := ih (dedupInsert acc t)
    have h2 : (dedupInsert acc t).length ≤ acc.length + 1 := by
      unfold dedupInsert
      by_cases h : t ∈ acc
      · rw [if_pos h]; omega
      · rw [if_neg h]; simp
    simp only [List.length_cons]
    omega

theorem dedupe_length_le (l : List Track) : (dedupe l).length ≤ l.length := by
  have := dedupeAppend_length_le l []
  simpa [dedupe] using this

theorem dedupeAppend_nodup (buf : List Track) :
    ∀ acc, acc.Nodup → (dedupeAppend acc buf).Nodup := by
  induction buf with
  | nil => intro acc h; exact h
  | cons t rest ih =>
    intro acc h
    show (dedupeAppend (dedupInsert acc t) rest).Nodup
    apply ih
    unfold dedupInsert
    by_cases ht : t ∈ acc
    · rw [if_pos ht]; exact h
    · rw [if_neg ht]
      rw [List.nodup_append]
      exact ⟨h, List.nodup_singleton t, by
        intro x hx hx1
        rw [List.mem_singleton] at hx1
        subst hx1
        exact ht hx⟩

theorem dedupe_nodup (l : List Track) : (dedupe l).Nodup :=
  dedupeAppend_nodup l [] List.nodup_nil

/-! ## Claims C7 and C8 -/

/-- Claim C7: the platform classifier is a total pure function of the host:
`music.youtube.com` maps to YouTube; `music.apple.com` and
`itunes.apple.com` to Apple; `open.spotify.com` and `spotify.com` to
Spotify; every other host, including the empty and the absent host, maps to
Unknown. -/
theorem C7_platform_classifier :
    Platform.from_url none = Platform.unknown
    ∧ Platform.from_url (some "") = Platform.unknown
    ∧ Platform.from_url (some "music.youtube.com") = Platform.youtube
    ∧ Platform.from_url (some "music.apple.com") = Platform.apple
    ∧ Platform.from_url (some "itunes.apple.com") = Platform.apple
    ∧ Platform.from_url (some "open.spotify.com") = Platform.spotify
    ∧ Platform.from_url (some "spotify.com") = Platform.spotify
    ∧ ∀ h : String, h ≠ "music.youtube.com" → h ≠ "music.apple.com" →
        h ≠ "itunes.apple.com" → h ≠ "open.spotify.com" → h ≠ "spotify.com" →
        Platform.from_url (some h) = Platform.unknown := by
  refine ⟨by decide, by decide, by decide, by decide, by decide, by decide, by decide, ?_⟩
  intro h h1 h2 h3 h4 h5
  simp only [Platform.from_url, Option.getD_some]
  rw [if_neg h1, if_neg (by tauto), if_neg (by tauto)]

/-- Witness for C7: a host outside the allow-list classifies as Unknown. -/
theorem C7_platform_classifier_witness :
    Platform.from_url (some "example.com") = Platform.unknown :=
  C7_platform_classifier.2.2.2.2.2.2.2 "example.com"
    (by decide) (by decide) (by decide) (by decide) (by decide)

/-- Claim C8: Track equality is structural on (name, artist, album) with
absent equal to absent, reflexive and symmetric, and the Spotify dedup
satisfies dedupe (L ++ L) = dedupe L for every sequence L. -/
theorem C8_track_equality_dedupe :
    (∀ a b : Track, a = b ↔ a.name = b.name ∧ a.artist = b.artist ∧ a.album = b.album)
    ∧ (∀ a : Track, a = a)
    ∧ (∀ a b : Track, a = b → b = a)
    ∧ (∀ L : List Track, dedupe (L ++ L) = dedupe L) := by
  refine ⟨?_, fun a => rfl, fun a b h => h.symm, ?_⟩
  · intro a b
    constructor
    · intro h; subst h; exact ⟨rfl, rfl, rfl⟩
    · rintro ⟨h1, h2, h3⟩
      cases a; cases b
      simp_all
  · intro L
    unfold dedupe
    rw [dedupeAppend_append]
    apply dedupeAppend_absorb
    intro x hx
    rw [mem_dedupeAppend]
    exact Or.inr hx

/-- Witness for C8: the symmetry component applied at a concrete pair, and
the dedup law at a concrete one-element list. -/
theorem C8_track_equality_dedupe_witness :
    trackA = trackA ∧ dedupe ([trackB] ++ [trackB]) = dedupe [trackB] :=
  ⟨C8_track_equality_dedupe.2.2.1 trackA trackA rfl,
   C8_track_equality_dedupe.2.2.2 [trackB]⟩

/-! ## Lemmas about the scroll loop -/

/-- When the accumulator is exactly the dedup of a prefix of the rendered
rows, a pass re-establishes that invariant for the full rendered list: the
`skip(tracks.len())` sees only rows whose parses are already collected. -/
theorem spotifyPass_dedupe (P s : List SpRow) :
    spotifyPass (dedupe (P.filterMap parseSpotifyRow)) (P ++ s)
      = dedupe ((P ++ s).filterMap parseSpotifyRow) := by
  have hk : (dedupe (P.filterMap parseSpotifyRow)).length ≤ P.length :=
    le_trans (dedupe_length_le _) (List.length_filterMap_le _ _)
  unfold spotifyPass
  rw [List.drop_append_of_le_length hk, List.filterMap_append, dedupeAppend_append]
  have habs : dedupeAppend (dedupe (P.filterMap parseSpotifyRow))
      ((P.drop (dedupe (P.filterMap parseSpotifyRow)).length).filterMap parseSpotifyRow)
      = dedupe (P.filterMap parseSpotifyRow) := by
    apply dedupeAppend_absorb
    intro x hx
    rw [List.mem_filterMap] at hx
    obtain ⟨r, hr, hpr⟩ := hx
    rw [mem_dedupe, List.mem_filterMap]
    exact ⟨r, List.drop_subset _ _ hr, hpr⟩
  rw [habs]
  show _ = dedupeAppend [] _
  rw [List.filterMap_append, dedupeAppend_append]
  rfl

/-- Fixed point: once the accumulator is the dedup of the rendered list, a
pass over that same list adds nothing. -/
theorem spotifyPass_fix (L : List SpRow) :
    spotifyPass (dedupe (L.filterMap parseSpotifyRow)) L
      = dedupe (L.filterMap parseSpotifyRow) := by
  have h := spotifyPass_dedupe L []
  rw [List.append_nil] at h
  exact h

/-- Every track in a pass result was already collected or parses from one of
the pass's rendered rows. -/
theorem mem_spotifyPass (t : Track) (tracks : List Track) (rows : List SpRow)
    (h : t ∈ spotifyPass tracks rows) :
    t ∈ tracks ∨ ∃ r, r ∈ rows ∧ parseSpotifyRow r = some t := by
  unfold spotifyPass at h
  rw [mem_dedupeAppend] at h
  rcases h with h | h
  · exact Or.inl h
  · rw [List.mem_filterMap] at h
    obtain ⟨r, hr, hpr⟩ := h
    exact Or.inr ⟨r, List.drop_subset _ _ hr, hpr⟩

/-- Every track in the loop's result was in the initial accumulator or
parses from a row of some successful query pass. -/
theorem mem_fetch_spotify (query : Nat → Option (List SpRow)) :
    ∀ (fuel pass : Nat) (init ts : List Track),
      fetch_spotify_playlist query fuel pass init = some ts →
      ∀ t ∈ ts, t ∈ init ∨
        ∃ p rows r, query p = some rows ∧ r ∈ rows ∧ parseSpotifyRow r = some t := by
  intro fuel
  induction fuel with
  | zero =>
    intro pass init ts h
    simp [fetch_spotify_playlist] at h
  | succ fuel ih =>
    intro pass init ts h t ht
    cases hq : query pass with
    | none =>
      simp only [fetch_spotify_playlist, hq] at h
      exact ih _ _ _ h t ht
    | some rows =>
      simp only [fetch_spotify_playlist, hq] at h
      by_cases hlen : (spotifyPass init rows).length = init.length
      · rw [if_pos hlen] at h
        have hts : ts = spotifyPass init rows := (Option.some.injEq _ _).mp h.symm
        subst hts
        rcases mem_spotifyPass t init rows ht with hin | ⟨r, hr, hpr⟩
        · exact Or.inl hin
        · exact Or.inr ⟨pass, rows, r, hq, hr, hpr⟩
      · rw [if_neg hlen] at h
        rcases ih _ _ _ h t ht with hin | hex
        · rcases mem_spotifyPass t init rows hin with hin2 | ⟨r, hr, hpr⟩
          · exact Or.inl hin2
          · exact Or.inr ⟨pass, rows, r, hq, hr, hpr⟩
        · exact Or.inr hex

/-! ## Claims C3 and C10 -/

/-- Claim C3: the scroll loop's step behaviour. A pass whose query fails is
retried without being counted as a zero-new-rows pass (the state is
unchanged and the loop continues); a successful pass adding zero new unique
rows terminates the loop at once, returning the accumulator unchanged; a
successful pass adding at least one new unique row continues the loop. -/
theorem C3_loop_termination_policy (query : Nat → Option (List SpRow))
    (fuel pass : Nat) (tracks : List Track) :
    (query pass = none →
      fetch_spotify_playlist query (fuel + 1) pass tracks
        = fetch_spotify_playlist query fuel (pass + 1) tracks)
    ∧ (∀ rows, query pass = some rows →
        (spotifyPass tracks rows).length = tracks.length →
        fetch_spotify_playlist query (fuel + 1) pass tracks = some tracks)
    ∧ (∀ rows, query pass = some rows →
        tracks.length < (spotifyPass tracks rows).length →
        fetch_spotify_playlist query (fuel + 1) pass tracks
          = fetch_spotify_playlist query fuel (pass + 1) (spotifyPass tracks rows)) := by
  refine ⟨?_, ?_, ?_⟩
  · intro h
    simp only [fetch_spotify_playlist, h]
  · intro rows h hlen
    simp only [fetch_spotify_playlist, h]
    rw [if_pos hlen]
    have heq : spotifyPass tracks rows = tracks := dedupeAppend_eq_of_length _ _ hlen
    rw [heq]
  · intro rows h hlen
    have hne : ¬ (spotifyPass tracks rows).length = tracks.length := by omega
    simp only [fetch_spotify_playlist, h]
    rw [if_neg hne]

/-- Witness for C3: on a session whose pass-0 query fails and whose later
passes return one stable row, the three step equations at concrete states. -/
theorem C3_loop_termination_policy_witness :
    fetch_spotify_playlist qFailThenA 2 0 []
      = fetch_spotify_playlist qFailThenA 1 1 []
    ∧ fetch_spotify_playlist qFailThenA 1 1 [trackA] = some [trackA]
    ∧ fetch_spotify_playlist qFailThenA 2 1 []
      = fetch_spotify_playlist qFailThenA 1 2 (spotifyPass [] [rowA]) :=
  ⟨(C3_loop_termination_policy qFailThenA 1 0 []).1 rfl,
   (C3_loop_termination_policy qFailThenA 0 1 [trackA]).2.1 [rowA] rfl (by decide),
   (C3_loop_termination_policy qFailThenA 1 1 []).2.2 [rowA] rfl (by decide)⟩

/-- Claim C10: every track the Spotify extractor returns has an absent
album, whatever the page rendered. -/
theorem C10_spotify_album_absent (query : Nat → Option (List SpRow))
    (fuel pass : Nat) (ts : List Track)
    (h : fetch_spotify_playlist query fuel pass [] = some ts) :
    ∀ t ∈ ts, t.album = none := by
  intro t ht
  rcases mem_fetch_spotify query fuel pass [] ts h t ht with hin | ⟨p, rows, r, _, _, hpr⟩
  · simp at hin
  · unfold parseSpotifyRow at hpr
    rcases r with ⟨sc, rn, ra⟩
    cases rn <;> cases ra <;> simp_all
    rw [← hpr]

/-- Witness for C10 at a concrete run that collects one track. -/
theorem C10_spotify_album_absent_witness : trackA.album = none :=
  C10_spotify_album_absent (fun _ => some [rowA]) 2 0 [trackA] (by decide)
    trackA (by decide)

/-! ## Claim C1: scroll-loop convergence -/

/-- Convergence of the scroll loop under an all-successful, prefix-growing,
eventually-stable query whose deduplicated parse strictly grows before
stabilization: from any pass `p ≤ N + 1` whose accumulator is the dedup of
the previous pass's parse, the loop reaches the fixed point of the stable
list within the remaining fuel. -/
theorem fetch_spotify_converges (query : Nat → List SpRow) (N : Nat) (L : List SpRow)
    (hgrow : ∀ p, ∃ s, query (p + 1) = query p ++ s)
    (hstab : ∀ p, N ≤ p → query p = L)
    (h0 : 0 < N → dedupe ((query 0).filterMap parseSpotifyRow) ≠ [])
    (hstrict : ∀ p, p < N →
      (dedupe ((query p).filterMap parseSpotifyRow)).length <
      (dedupe ((query (p + 1)).filterMap parseSpotifyRow)).length) :
    ∀ d p, p + d = N + 1 →
      fetch_spotify_playlist (fun i => some (query i)) (d + 1) p
        (dedupe ((prevRows query p).filterMap parseSpotifyRow))
      = some (dedupe (L.filterMap parseSpotifyRow)) := by
  intro d
  induction d with
  | zero =>
    intro p hp
    have hpN : p = N + 1 := by omega
    subst hpN
    have hq : query (N + 1) = L := hstab _ (by omega)
    have hprev : prevRows query (N + 1) = L := hstab N (by omega)
    simp only [fetch_spotify_playlist, hprev, hq, spotifyPass_fix, if_pos]
  | succ d ih =>
    intro p hp
    have hpre : ∃ s, query p = prevRows query p ++ s := by
      cases p with
      | zero => exact ⟨query 0, rfl⟩
      | succ q => exact hgrow q
    obtain ⟨s, hs⟩ := hpre
    have hpass : spotifyPass (dedupe ((prevRows query p).filterMap parseSpotifyRow)) (query p)
        = dedupe ((query p).filterMap parseSpotifyRow) := by
      rw [hs]
      exact spotifyPass_dedupe _ _
    simp only [fetch_spotify_playlist, hpass]
    by_cases hbreak : (dedupe ((query p).filterMap parseSpotifyRow)).length
        = (dedupe ((prevRows query p).filterMap parseSpotifyRow)).length
    · rw [if_pos hbreak]
      -- a zero-new-rows pass before stabilization contradicts the
      -- strict-growth hypotheses except when p = N = 0
      cases p with
      | zero =>
        cases Nat.eq_zero_or_pos N with
        | inl hN0 =>
          rw [hstab 0 (by omega)]
        | inr hNpos =>
          exfalso
          apply h0 hNpos
          have : (dedupe ((query 0).filterMap parseSpotifyRow)).length = 0 := by
            simpa [prevRows, dedupe, dedupeAppend] using hbreak
          exact List.length_eq_zero.mp this
      | succ q =>
        exfalso
        have hqN : q < N := by omega
        have := hstrict q hqN
        simp only [prevRows] at hbreak
        omega
    · rw [if_neg hbreak]
      exact ih (p + 1) (by omega)

/-- Claim C1 (amended): for every simulated Page Session whose row query
succeeds on every pass and returns a prefix-growing row list stabilizing at
pass N — provided pass 0 parses at least one row when N > 0 and every pass
before stabilization strictly adds at least one new unique parsed row — the
scroll loop terminates within N + 2 passes with `collected` equal to the
deduplicated stabilized row list in first-seen order, and `collected` is
duplicate-free. -/
theorem C1_scroll_loop_convergence (query : Nat → List SpRow) (N : Nat) (L : List SpRow)
    (hgrow : ∀ p, ∃ s, query (p + 1) = query p ++ s)
    (hstab : ∀ p, N ≤ p → query p = L)
    (h0 : 0 < N → dedupe ((query 0).filterMap parseSpotifyRow) ≠ [])
    (hstrict : ∀ p, p < N →
      (dedupe ((query p).filterMap parseSpotifyRow)).length <
      (dedupe ((query (p + 1)).filterMap parseSpotifyRow)).length) :
    fetch_spotify_playlist (fun i => some (query i)) (N + 2) 0 []
      = some (dedupe (L.filterMap parseSpotifyRow))
    ∧ (dedupe (L.filterMap parseSpotifyRow)).Nodup := by
  constructor
  · have h := fetch_spotify_converges query N L hgrow hstab h0 hstrict (N + 1) 0 (by omega)
    simpa [prevRows, dedupe, dedupeAppend] using h
  · exact dedupe_nodup _

/-- Witness for C1: a session growing `[rowA]`, then stable `[rowA, rowB]`,
collected completely. -/
theorem C1_scroll_loop_convergence_witness :
    fetch_spotify_playlist (fun i => some (wQL i)) 3 0 []
      = some (dedupe ([rowA, rowB].filterMap parseSpotifyRow))
    ∧ (dedupe ([rowA, rowB].filterMap parseSpotifyRow)).Nodup :=
  C1_scroll_loop_convergence wQL 1 [rowA, rowB]
    (fun p => by
      cases p with
      | zero => exact ⟨[rowB], rfl⟩
      | succ q => exact ⟨[], by simp [wQL]⟩)
    (fun p hp => by
      cases p with
      | zero => omega
      | succ q => rfl)
    (fun _ => by decide)
    (fun p hp => by
      have hp0 : p = 0 := by omega
      subst hp0
      decide)

/-- Counterexample to claim C1 as stated: a prefix-growing,
eventually-stable query on which the loop terminates with a strict subset of
the stabilized list. Pass 0 renders `[rowA]`; pass 1 renders `[rowA, rowA]`
(the delta is a duplicate), so the pass adds zero new unique tracks and the
loop breaks; the stabilized list `[rowA, rowA, rowB]` of pass 2 onwards is
never seen and `trackB` is lost. -/
theorem C1_counterexample :
    ¬ (∀ (query : Nat → List SpRow) (N : Nat) (L : List SpRow),
        (∀ p, ∃ s, query (p + 1) = query p ++ s) →
        (∀ p, N ≤ p → query p = L) →
        ∃ fuel ts, fetch_spotify_playlist (fun i => some (query i)) fuel 0 [] = some ts
          ∧ ts = dedupe (L.filterMap parseSpotifyRow)) := by
  intro hclaim
  obtain ⟨fuel, ts, hrun, hts⟩ := hclaim cexQL 2 [rowA, rowA, rowB]
    (fun p => by
      match p with
      | 0 => exact ⟨[rowA], rfl⟩
      | 1 => exact ⟨[rowB], rfl⟩
      | q + 2 => exact ⟨[], by simp [cexQL]⟩)
    (fun p hp => by
      match p with
      | q + 2 => rfl
      | 0 => omega
      | 1 => omega)
  have hall : ∀ f, fetch_spotify_playlist (fun i => some (cexQL i)) (f + 2) 0 []
      = some [trackA] := fun f => rfl
  have hta : ts = [trackA] := by
    rcases fuel with _ | _ | f
    · rw [show fetch_spotify_playlist (fun i => some (cexQL i)) 0 0 [] = none from rfl] at hrun
      exact Option.noConfusion hrun
    · rw [show fetch_spotify_playlist (fun i => some (cexQL i)) 1 0 [] = none from rfl] at hrun
      exact Option.noConfusion hrun
    · have h2 : some [trackA] = some ts := (hall f).symm.trans hrun
      exact ((Option.some.injEq _ _).mp h2).symm
  rw [hta] at hts
  exact absurd hts (by decide)

/-! ## Lemmas about the YouTube extractor -/

/-- The only error the row-shape match can raise is the fatal malformedRow. -/
theorem parseYtTexts_error_eq (texts : List String) (e : FetchError)
    (h : parseYtTexts texts = Except.error e) : e = FetchError.malformedRow := by
  unfold parseYtTexts at h
  split at h
  · exact Except.noConfusion h
  · exact (Except.error.injEq _ _).mp h.symm

/-- Any text-field count other than five hits the `unreachable!()` arm. -/
theorem parseYtTexts_len_ne (texts : List String) (h : texts.length ≠ 5) :
    parseYtTexts texts = Except.error FetchError.malformedRow := by
  unfold parseYtTexts
  split
  · simp at h
  · rfl

/-- The `Some(album).filter(|s| !s.is_empty())` idiom maps exactly the empty
string to absent. -/
theorem album_filter_eq (al : String) :
    (some al).filter (fun s => !s.isEmpty) = if al = "" then none else some al := by
  by_cases hemp : al = ""
  · subst hemp
    rw [if_pos rfl]
    rfl
  · rw [if_neg hemp]
    have hf : al.isEmpty = false := by
      rcases Bool.eq_false_or_eq_true al.isEmpty with hh | hh
      · exact absurd ((String.isEmpty_iff al).mp hh) hemp
      · exact hh
    simp [Option.filter, hf]

/-- The album mapping of a five-field row, explicitly. -/
theorem parseYtTexts_five (n a al d e : String) :
    parseYtTexts [n, a, al, d, e]
      = Except.ok { name := n, artist := a,
                    album := if al = "" then none else some al } := by
  rw [show parseYtTexts [n, a, al, d, e]
      = Except.ok { name := n, artist := a,
                    album := (some al).filter (fun s => !s.isEmpty) } from rfl,
    album_filter_eq]

/-- A malformed row anywhere in the buffer makes the whole mapping fail with
the fatal malformedRow error (the mapping runs in order and stops at the
first offending row). -/
theorem tryMapTracks_bad (l : List (List (Option String)))
    (fs : List (Option String)) (hmem : fs ∈ l)
    (hbad : (fs.filterMap id).length ≠ 5) :
    tryMapTracks l = Except.error FetchError.malformedRow := by
  induction l with
  | nil => exact absurd hmem (List.not_mem_nil fs)
  | cons g rest ih =>
    rcases List.mem_cons.mp hmem with rfl | hmem2
    · unfold tryMapTracks
      rw [parseYtTexts_len_ne _ hbad]
    · unfold tryMapTracks
      cases hp : parseYtTexts (g.filterMap id) with
      | error e => rw [parseYtTexts_error_eq _ _ hp]
      | ok t => rw [ih hmem2]

/-- Every track in a successful mapping comes from some row's texts. -/
theorem tryMapTracks_ok_mem (l : List (List (Option String))) :
    ∀ (ts : List Track), tryMapTracks l = Except.ok ts →
      ∀ t ∈ ts, ∃ fs, fs ∈ l ∧ parseYtTexts (fs.filterMap id) = Except.ok t := by
  induction l with
  | nil =>
    intro ts h t ht
    simp only [tryMapTracks] at h
    have hts : ([] : List Track) = ts := (Except.ok.injEq _ _).mp h
    rw [← hts] at ht
    exact absurd ht (List.not_mem_nil t)
  | cons g rest ih =>
    intro ts h t ht
    unfold tryMapTracks at h
    cases hp : parseYtTexts (g.filterMap id) with
    | error e => rw [hp] at h; exact Except.noConfusion h
    | ok t0 =>
      rw [hp] at h
      cases hr : tryMapTracks rest with
      | error e => rw [hr] at h; exact Except.noConfusion h
      | ok ts0 =>
        rw [hr] at h
        have hts : ts = t0 :: ts0 := ((Except.ok.injEq _ _).mp h).symm
        subst hts
        rcases List.mem_cons.mp ht with rfl | ht2
        · exact ⟨g, List.mem_cons_self g rest, hp⟩
        · obtain ⟨fs, hfs, hok⟩ := ih ts0 hr t ht2
          exact ⟨fs, List.mem_cons_of_mem g hfs, hok⟩

/-- A five-field parse reads name and artist from the first two texts and
the album from the third, mapping an empty album to absent. -/
theorem parseYtTexts_ok_shape (texts : List String) (t : Track)
    (h : parseYtTexts texts = Except.ok t) :
    ∃ n a al d e, texts = [n, a, al, d, e] ∧ t.name = n ∧ t.artist = a
      ∧ t.album = if al = "" then none else some al := by
  unfold parseYtTexts at h
  split at h
  · rename_i n a al d e
    have ht : (Track.mk n a ((some al).filter (fun s => !s.isEmpty))) = t :=
      (Except.ok.injEq _ _).mp h
    rw [← ht]
    exact ⟨n, a, al, d, e, rfl, rfl, rfl, album_filter_eq al⟩
  · exact Except.noConfusion h

/-! ## Claim C6 -/

/-- Claim C6: in the YouTube extractor a row whose extracted text fields
number anything other than five makes the whole extraction fail with the
fatal malformedRow error (never silently skipped or mis-mapped), while a
five-field row maps the first three fields to name, artist and album
(an empty album string becoming absent) and discards the rest. -/
theorem C6_yt_malformed_row (page : YtPage) (rs : List YtRow) (r : YtRow)
    (fs : List (Option String)) (texts : List String) (n a al d e : String) :
    (parseYtTexts [n, a, al, d, e]
       = Except.ok { name := n, artist := a,
                     album := if al = "" then none else some al })
    ∧ (texts.length ≠ 5 → parseYtTexts texts = Except.error FetchError.malformedRow)
    ∧ (page.newTabOk = true → page.navOk = true → page.rows = some rs →
        r ∈ rs → r.fields = some fs → (fs.filterMap id).length ≠ 5 →
        fetch_yt_playlist page = Except.error FetchError.malformedRow) := by
  refine ⟨parseYtTexts_five n a al d e, parseYtTexts_len_ne texts, ?_⟩
  intro h1 h2 h3 hmem hf hbad
  unfold fetch_yt_playlist
  rw [h1, h2, h3]
  simp only [Bool.true_eq_false, if_false]
  exact tryMapTracks_bad _ fs (List.mem_filterMap.mpr ⟨r, hmem, hf⟩) hbad

/-- Witness for C6: a well-shaped five-field row parses to a track, a
one-field row is fatal, and an extraction containing such a row fails. -/
theorem C6_yt_malformed_row_witness :
    parseYtTexts ["N", "A", "Al", "3:00", ""]
      = Except.ok { name := "N", artist := "A",
                    album := if "Al" = "" then none else some "Al" }
    ∧ parseYtTexts ["x"] = Except.error FetchError.malformedRow
    ∧ fetch_yt_playlist (YtPage.mk true true (some [YtRow.mk (some [some "x"])]))
        = Except.error FetchError.malformedRow :=
  ⟨(C6_yt_malformed_row (YtPage.mk true true (some [YtRow.mk (some [some "x"])]))
      [YtRow.mk (some [some "x"])] (YtRow.mk (some [some "x"]))
      [some "x"] ["x"] "N" "A" "Al" "3:00" "").1,
   (C6_yt_malformed_row (YtPage.mk true true (some [YtRow.mk (some [some "x"])]))
      [YtRow.mk (some [some "x"])] (YtRow.mk (some [some "x"]))
      [some "x"] ["x"] "N" "A" "Al" "3:00" "").2.1 (by decide),
   (C6_yt_malformed_row (YtPage.mk true true (some [YtRow.mk (some [some "x"])]))
      [YtRow.mk (some [some "x"])] (YtRow.mk (some [some "x"]))
      [some "x"] ["x"] "N" "A" "Al" "3:00" "").2.2 rfl rfl rfl
     (by decide) rfl (by decide)⟩

/-! ## Claim C9 -/

/-- A successful YouTube extraction implies the session calls succeeded and
the result is the row mapping. -/
theorem fetch_yt_ok_rows (page : YtPage) (ts : List Track)
    (h : fetch_yt_playlist page = Except.ok ts) :
    ∃ rs, page.rows = some rs
      ∧ tryMapTracks (rs.filterMap YtRow.fields) = Except.ok ts := by
  unfold fetch_yt_playlist at h
  by_cases h1 : page.newTabOk = false
  · rw [if_pos h1] at h
    exact Except.noConfusion h
  · rw [if_neg h1] at h
    by_cases h2 : page.navOk = false
    · rw [if_pos h2] at h
      exact Except.noConfusion h
    · rw [if_neg h2] at h
      cases hr : page.rows with
      | none => rw [hr] at h; exact Except.noConfusion h
      | some rs => rw [hr] at h; exact ⟨rs, rfl, h⟩

/-- Claim C9 (amended): every track an extractor produces has its album
either absent or a non-empty string (never present and empty); name and
artist are copied verbatim from the page's extracted texts, so they are
non-empty after trimming whenever the corresponding page texts are — the
extractors themselves do not enforce non-emptiness. -/
theorem C9_field_invariants :
    (∀ (page : YtPage) (ts : List Track), fetch_yt_playlist page = Except.ok ts →
      ∀ t ∈ ts,
        (∀ s, t.album = some s → s ≠ "")
        ∧ ((∀ fs ∈ (page.rows.getD []).filterMap YtRow.fields,
              ∀ s ∈ (fs.filterMap id).take 2, trimStr s ≠ "") →
            trimStr t.name ≠ "" ∧ trimStr t.artist ≠ ""))
    ∧ (∀ (query : Nat → Option (List SpRow)) (fuel pass : Nat) (ts : List Track),
        fetch_spotify_playlist query fuel pass [] = some ts →
        ∀ t ∈ ts,
          (∀ s, t.album = some s → s ≠ "")
          ∧ ((∀ p rows r, query p = some rows → r ∈ rows →
                (∀ s, r.name = some s → trimStr s ≠ "") ∧
                (∀ s, r.artist = some s → trimStr s ≠ "")) →
              trimStr t.name ≠ "" ∧ trimStr t.artist ≠ "")) := by
  constructor
  · intro page ts h t ht
    obtain ⟨rs, hr, hmap⟩ := fetch_yt_ok_rows page ts h
    obtain ⟨fs, hfs, hok⟩ := tryMapTracks_ok_mem _ ts hmap t ht
    obtain ⟨n, a, al, d, e, hsh, hn, ha, hal⟩ := parseYtTexts_ok_shape _ t hok
    constructor
    · intro s hs
      rw [hal] at hs
      by_cases hemp : al = ""
      · rw [if_pos hemp] at hs
        exact Option.noConfusion hs
      · rw [if_neg hemp] at hs
        have heq : al = s := (Option.some.injEq _ _).mp hs
        rw [← heq]
        exact hemp
    · intro hcond
      have hfs2 : fs ∈ (page.rows.getD []).filterMap YtRow.fields := by
        rw [hr]
        exact hfs
      constructor
      · rw [hn]
        exact hcond fs hfs2 n (by rw [hsh]; simp)
      · rw [ha]
        exact hcond fs hfs2 a (by rw [hsh]; simp)

  · intro query fuel pass ts h t ht
    rcases mem_fetch_spotify query fuel pass [] ts h t ht with hin | ⟨p, rows, r, hq, hr, hpr⟩
    · simp at hin
    · rcases r with ⟨sc, rn, ra⟩
      cases rn with
      | none => simp [parseSpotifyRow] at hpr
      | some nm =>
        cases ra with
        | none => simp [parseSpotifyRow] at hpr
        | some ar =>
          simp only [parseSpotifyRow] at hpr
          have ht2 : Track.mk nm ar none = t := (Option.some.injEq _ _).mp hpr
          constructor
          · intro s hs
            rw [← ht2] at hs
            exact Option.noConfusion hs
          · intro hcond
            have hc := hcond p rows (SpRow.mk sc (some nm) (some ar)) hq hr
            rw [← ht2]
            exact ⟨hc.1 nm rfl, hc.2 ar rfl⟩

/-- Witness for C9 at a concrete one-row YouTube page with non-blank name
and artist texts. -/
theorem C9_field_invariants_witness :
    (∀ s, (Track.mk "N" "A" none).album = some s → s ≠ "")
    ∧ trimStr (Track.mk "N" "A" none).name ≠ ""
    ∧ trimStr (Track.mk "N" "A" none).artist ≠ "" :=
  have h := C9_field_invariants.1
    (YtPage.mk true true
      (some [YtRow.mk (some [some "N", some "A", some "", some "3:00", some ""])]))
    [Track.mk "N" "A" none] rfl (Track.mk "N" "A" none) (by decide)
  ⟨h.1, h.2 (by decide)⟩

/-- Counterexample to claim C9 as stated: the YouTube extractor happily
produces a track whose name and artist are empty when the page's text fields
are empty — no trimming or non-emptiness check exists in the code. -/
theorem C9_counterexample :
    fetch_yt_playlist (YtPage.mk true true
        (some [YtRow.mk (some [some "", some "", some "", some "x", some ""])]))
      = Except.ok [Track.mk "" "" none]
    ∧ trimStr (Track.mk "" "" none).name = "" := by
  constructor
  · rfl
  · rfl

/-! ## Claim C4 -/

/-- Claim C4: the resolver's match policy. Over a rendered Songs section of
fully extracted candidates (visible text, href), `try_find_apple_song_link`
returns exactly the percent-decoded href of the first candidate, in rendered
order, whose visible text case-insensitively equals the track's name — the
artist is never consulted — and returns nothing when no candidate's text
matches. -/
theorem C4_resolver_first_match (track : Track) :
    ∀ cands : List (String × String),
      try_find_apple_song_link
          (ApplePage.mk (some (SongsSection.mk (some (cands.map mkCandidateRow))))) track
        = (cands.find? (fun c => toLowerStr c.1 == toLowerStr track.name)).bind
            (fun c => urldecode c.2) := by
  intro cands
  induction cands with
  | nil => rfl
  | cons c rest ih =>
    simp only [try_find_apple_song_link] at ih ⊢
    simp only [List.map_cons, mkCandidateRow, List.filterMap_cons]
    by_cases hm : (toLowerStr c.1 == toLowerStr track.name) = true
    · rw [List.filter_cons_of_pos (by exact hm), List.find?_cons_of_pos _ (by exact hm)]
      simp [List.filterMap_cons]
    · rw [List.filter_cons_of_neg (by exact hm), List.find?_cons_of_neg _ (by exact hm)]
      exact ih

/-! ## Claims C2 and C5 -/

/-- Claim C2 (amended): when tab creation and search navigation succeed for
every track, a per-track match failure — the Songs container never
appearing, or no candidate matching — is caught and treated as "no match":
the track is omitted from the output and resolution continues through all
remaining tracks. -/
theorem C2_failure_isolation (l : List (Track × TrackEnv))
    (h : ∀ te ∈ l, te.2.newTabOk = true ∧ te.2.navOk = true) :
    find_apple_links l
      = some (l.filterMap (fun te => try_find_apple_song_link te.2.page te.1)) := by
  induction l with
  | nil => rfl
  | cons te rest ih =>
    obtain ⟨h1, h2⟩ := h te (List.mem_cons_self te rest)
    have hrest := ih (fun x hx => h x (List.mem_cons_of_mem te hx))
    obtain ⟨track, env⟩ := te
    have h1e : env.newTabOk = true := h1
    have h2e : env.navOk = true := h2
    simp only [find_apple_links, find_apple_links_run, h1e, h2e] at hrest ⊢
    simp only [Bool.true_eq_false, if_false, List.filterMap_cons]
    rw [show (find_apple_links_run rest).result
        = some (rest.filterMap (fun te => try_find_apple_song_link te.2.page te.1))
        from hrest]
    cases htf : try_find_apple_song_link env.page track with
    | none => simp [htf]
    | some u => simp [htf]

/-- Witness for C2: a first track whose Songs container never appears is
dropped while the second still resolves. -/
theorem C2_failure_isolation_witness :
    find_apple_links [(trackFoo, envNoSongsCloseFail), (trackFoo, envGood)]
      = some ([(trackFoo, envNoSongsCloseFail), (trackFoo, envGood)].filterMap
          (fun te => try_find_apple_song_link te.2.page te.1)) :=
  C2_failure_isolation [(trackFoo, envNoSongsCloseFail), (trackFoo, envGood)]
    (by decide)

/-- Counterexample to claim C2 as stated: a search-navigation failure for
the first track is NOT caught — `tab.navigate_to(&url)?` propagates the
error, the resolver returns Err, and the second (perfectly resolvable)
track is lost with it. -/
theorem C2_counterexample :
    find_apple_links [(trackFoo, envNavFail), (trackFoo, envGood)] = none
    ∧ find_apple_links [(trackFoo, envGood)]
        = some ["https://music.apple.com/song/1"] := by
  constructor
  · rfl
  · rfl

/-- Claim C5 (amended): when tab creation and navigation succeed, the
per-track tab is closed after the resolution attempt whether or not a match
was found and whether or not the close itself fails, and a close failure is
never propagated — the run's behaviour is identical under any close
outcomes. But when navigation fails, the error propagates before the close,
leaving that tab open. -/
theorem C5_session_close :
    (∀ l : List (Track × TrackEnv),
      (∀ te ∈ l, te.2.newTabOk = true ∧ te.2.navOk = true) →
      (find_apple_links_run l).opened = l.length
      ∧ (find_apple_links_run l).closed = l.length)
    ∧ (∀ l : List (Track × TrackEnv),
      find_apple_links_run (l.map (fun te =>
        (te.1, TrackEnv.mk te.2.newTabOk te.2.navOk te.2.page true)))
        = find_apple_links_run l) := by
  constructor
  · intro l h
    induction l with
    | nil => exact ⟨rfl, rfl⟩
    | cons te rest ih =>
      obtain ⟨h1, h2⟩ := h te (List.mem_cons_self te rest)
      have hrest := ih (fun x hx => h x (List.mem_cons_of_mem te hx))
      obtain ⟨track, env⟩ := te
      have h1e : env.newTabOk = true := h1
      have h2e : env.navOk = true := h2
      simp only [find_apple_links_run, h1e, h2e, Bool.true_eq_false, if_false,
        List.length_cons]
      omega
  · intro l
    induction l with
    | nil => rfl
    | cons te rest ih =>
      obtain ⟨track, env⟩ := te
      simp only [List.map_cons, find_apple_links_run]
      by_cases h1 : env.newTabOk = false
      · simp [h1]
      · by_cases h2 : env.navOk = false
        · simp [h1, h2]
        · simp [h1, h2, ih]

/-- Witness for C5: one track with no match and a failing close still has
its tab opened and closed exactly once. -/
theorem C5_session_close_witness :
    (find_apple_links_run [(trackFoo, envNoSongsCloseFail)]).opened = 1
    ∧ (find_apple_links_run [(trackFoo, envNoSongsCloseFail)]).closed = 1 :=
  C5_session_close.1 [(trackFoo, envNoSongsCloseFail)] (by decide)

/-- Counterexample to claim C5 as stated: when navigation fails the tab is
opened but never closed and the error propagates, aborting the run — the
session is not released on that path. -/
theorem C5_counterexample :
    (find_apple_links_run [(trackFoo, envNavFail)]).opened = 1
    ∧ (find_apple_links_run [(trackFoo, envNavFail)]).closed = 0
    ∧ find_apple_links [(trackFoo, envNavFail)] = none := by
  refine ⟨rfl, rfl, rfl⟩

end TurboDisco
